import Mathlib

/-
Verification of the convert2webp buffer-conversion core.

The JavaScript sources (src/buffer_utils.js, src/temp_path.js, src/cwebp.js,
src/webpconverter.js) are shallowly embedded below.  Filesystem and
subprocess effects are made explicit: an `Env` value fixes the outcome of
each effectful primitive of a single conversion call (the generated uuid,
whether mkdir/write are denied, how the spawned process terminates and what
it writes), an `FsState` is the visible filesystem, and every operation
additionally returns the list of filesystem/process events it performed.
Node platform primitives that the code calls (fs, path.join, Buffer.from
with base64, child_process.execFile) are modelled directly; where a
primitive's behaviour is simplified the definition's doc comment says how.
-/

/-- Observable filesystem / process events of one conversion call, in order. -/
inductive Event where
  | dirCreated (path : String)
  | fileWritten (path : String)
  | toolInvoked (binary : String) (args : List String)
  | fileRead (path : String)
  | removeAttempted (path : String)
deriving Repr, DecidableEq

/-- How the `child_process.execFile` call of one conversion turns out:
either the binary cannot be spawned (missing, not executable), or the
process runs and exits with a code, having produced the captured stdout and
stderr texts.  Termination by signal is not modelled. -/
inductive ExecOutcome where
  | spawnError (message : String)
  | exited (code : Nat) (stdout stderr : String)
deriving Repr, DecidableEq

/-- The errors the embedded code can throw, one constructor per throw site:
`mkdirSync` failure rethrown by getTempPath, `fs.writeFile` rejection, the
unsupported-platform `Error` thrown by getCwebpPath, `execFile` spawn
rejection, `execFile` non-zero-exit rejection, and `fs.readFile` rejection
on a missing file. -/
inductive JsError where
  | dirCreationError (path message : String)
  | writeError (path message : String)
  | unsupportedPlatform (key : String)
  | toolSpawnError (binary message : String)
  | toolExitError (binary : String) (code : Nat) (stdout stderr : String)
  | readError (path : String)
  | rmError (path message : String)
deriving Repr, DecidableEq

/-- The filesystem visible to one call: the set of existing directories and
the regular files with their byte contents. -/
structure FsState where
  dirs : List String
  files : List (String × List Nat)
deriving Repr, DecidableEq

/-- The environment of a single conversion call: the identifier `uuid()`
returns, whether `fs.mkdirSync` is denied (and with what message), whether
`fs.writeFile` is denied, how the spawned cwebp process terminates, the
bytes the tool writes to its output path while running (`none`: the tool
produced no output file), and whether the removal of an existing file at
the input / output temp path is denied (`fs.rm` with `force: true`
suppresses only the missing-path error; any other rejection, e.g. a
permission error, still rejects). -/
structure Env where
  uuidValue : String
  mkdirDenied : Option String
  writeDenied : Option String
  execOutcome : ExecOutcome
  toolOutput : Option (List Nat)
  rmInputDenied : Option String
  rmOutputDenied : Option String
deriving Repr, DecidableEq

/-- Store `bytes` at `p`, replacing any previous file at `p`. -/
def fsWrite (st : FsState) (p : String) (bytes : List Nat) : FsState :=
  { st with files := (p, bytes) :: st.files.filter (fun e => e.1 ≠ p) }

/-- The bytes of the file at `p`, if it exists. -/
def fsLookup (st : FsState) (p : String) : Option (List Nat) :=
  (st.files.find? (fun e => e.1 = p)).map (fun e => e.2)

/-- The filesystem with the file at `p` deleted (the state change of a
successful removal). -/
def fsRemoveFile (st : FsState) (p : String) : FsState :=
  { st with files := st.files.filter (fun e => e.1 ≠ p) }

/-- Modelled from Node `fs.rm(p, { force: true })`: a missing path is not
an error (`force` suppresses ENOENT) and leaves the state unchanged; for an
existing file the removal either succeeds, deleting the file, or — when the
environment denies it (permission error and the like) — rejects with an
`rmError`, leaving the file on disk. -/
def fsRm (st : FsState) (p : String) (denied : Option String) :
    Except JsError Unit × FsState :=
  match fsLookup st p, denied with
  | none, _ => (Except.ok (), st)
  | some _, some msg => (Except.error (JsError.rmError p msg), st)
  | some _, none => (Except.ok (), fsRemoveFile st p)

/-- Split a character list into its `/`-separated segments, keeping empty
segments (accumulator-passing, like the space splitter further down). -/
def splitSlashChars : List Char → List Char → List (List Char)
  | [], acc => [acc.reverse]
  | '/' :: rest, acc => acc.reverse :: splitSlashChars rest []
  | c :: rest, acc => splitSlashChars rest (c :: acc)

/-- Interleave one `/` between the segments. -/
def renderSegs : List (List Char) → List Char
  | [] => []
  | [t] => t
  | t :: rest => t ++ '/' :: renderSegs rest

/-- One step of Node's path normalisation over the stack of kept segments:
empty and `.` segments are dropped, `..` pops the previous segment (kept
for a relative path with nothing left to pop, dropped at the root of an
absolute path), and any other segment is kept. -/
def normStep (isAbs : Bool) (stack : List (List Char)) (seg : List Char) :
    List (List Char) :=
  if seg = [] ∨ seg = ['.'] then stack
  else if seg = ['.', '.'] then
    match stack with
    | [] => if isAbs then [] else [['.', '.']]
    | top :: stack2 =>
        if top = ['.', '.'] then ['.', '.'] :: top :: stack2 else stack2
  else seg :: stack

/-- Fold `normStep` over the segments; the kept segments, in order. -/
def normSegs (isAbs : Bool) : List (List Char) → List (List Char) →
    List (List Char)
  | [], stack => stack.reverse
  | seg :: rest, stack => normSegs isAbs rest (normStep isAbs stack seg)

/-- Modelled from Node `path.normalize` on POSIX: resolve `.` and `..`
segments and collapse repeated separators, keeping the leading separator of
an absolute path; the empty path normalises to `.`.  A trailing separator
is not preserved. -/
def pathNormalize (s : String) : String :=
  let isAbs : Bool := decide (s.data.head? = some '/')
  let body := renderSegs (normSegs isAbs (splitSlashChars s.data []) [])
  if isAbs then String.mk ('/' :: body)
  else if body = [] then "." else String.mk body

/-- Modelled from Node `path.join(dir, name)` on POSIX: zero-length parts
are ignored, the parts are joined with one separator, and the result is
normalised. -/
def pathJoin (dir name : String) : String :=
  if dir = "" then pathNormalize name
  else if name = "" then pathNormalize dir
  else pathNormalize (dir ++ "/" ++ name)

/-- A string usable as a single file name: non-empty, free of the path
separator, and not one of the special `.` / `..` segments, so that
`pathJoin` keeps it as the final path segment verbatim. -/
def normalSegment (n : String) : Prop :=
  n.data ≠ [] ∧ '/' ∉ n.data ∧ n.data ≠ ['.'] ∧ n.data ≠ ['.', '.']

/-- Modelled from Node `os.tmpdir()` on Linux. -/
def osTmpDir : String := "/tmp"

/-- src/temp_path.js line 23: the default directory
`path.join(os.tmpdir(), 'webp-converter-js')`. -/
def defaultTempDir : String := pathJoin osTmpDir "webp-converter-js"

/-- src/temp_path.js line 23: `customPath || default`.  The argument is the
optional `customPath` parameter; the empty string is falsy in JavaScript,
so it falls through to the default exactly as an absent argument does. -/
def resolveTarget (customPath : Option String) : String :=
  match customPath with
  | some s => if s = "" then defaultTempDir else s
  | none => defaultTempDir

/-- src/temp_path.js `getTempPath`: resolve the target directory, ensure it
exists with `fs.mkdirSync(targetPath, { recursive: true })` (idempotent: an
existing directory is not an error), rethrow a creation failure, and return
the target path. -/
def getTempPath (customPath : Option String) (env : Env) (st : FsState) :
    Except JsError String × FsState × List Event :=
  let targetPath := resolveTarget customPath
  if targetPath ∈ st.dirs then
    (Except.ok targetPath, st, [])
  else
    match env.mkdirDenied with
    | some msg => (Except.error (JsError.dirCreationError targetPath msg), st, [])
    | none =>
        (Except.ok targetPath, { st with dirs := targetPath :: st.dirs },
         [Event.dirCreated targetPath])

/-- src/cwebp.js lines 11-24: the platform-architecture to binary-path map
(the commented-out entries are absent, as in the source). -/
def cwebpPlatformConfig : List (String × List String) :=
  [("darwin-x64", ["libwebp_osx", "bin", "cwebp"]),
   ("darwin-arm64", ["libwebp_osx", "bin", "cwebp"]),
   ("linux-x64", ["libwebp_linux", "bin", "cwebp"]),
   ("win32-x64", ["libwebp_win64", "bin", "cwebp.exe"])]

/-- Modelled from Node `__dirname` for src/cwebp.js. -/
def cwebpDirname : String := "src"

/-- src/cwebp.js `getCwebpPath`, with the ambient `process.platform`-`arch`
key passed explicitly: look the key up in the config and either throw the
unsupported-platform error or build the binary path. -/
def getCwebpPath (platformKey : String) : Except JsError String :=
  match cwebpPlatformConfig.find? (fun e => e.1 = platformKey) with
  | none => Except.error (JsError.unsupportedPlatform platformKey)
  | some e =>
      Except.ok (e.2.foldl pathJoin (pathJoin (pathJoin cwebpDirname "..") "bin"))

/-- Modelled from JavaScript `option.split(' ')` (split on the single space
character, keeping empty pieces; the split of the empty string is a list
holding one empty string): accumulator-passing splitter over characters. -/
def splitSpaceChars : List Char → List Char → List (List Char)
  | [], acc => [acc.reverse]
  | ' ' :: rest, acc => acc.reverse :: splitSpaceChars rest []
  | c :: rest, acc => splitSpaceChars rest (c :: acc)

/-- JavaScript `s.split(' ')` as a function on Lean strings. -/
def jsSplitSpace (s : String) : List String :=
  (splitSpaceChars s.data []).map String.mk

/-- Inverse direction of splitting, used to state what `jsSplitSpace`
computes: interleave one space between the pieces. -/
def joinWithSpace : List (List Char) → List Char
  | [] => []
  | [t] => t
  | t :: rest => t ++ ' ' :: joinWithSpace rest

/-- `joinWithSpace` on strings. -/
def joinWithSpaceStr (l : List String) : String :=
  String.mk (joinWithSpace (l.map String.data))

/-- src/webpconverter.js line 79: the argument list of the cwebp call,
`[...option.split(' '), input_image, '-o', output_image, logging]`. -/
def jsCwebpArgs (option_ input_image output_image logging : String) : List String :=
  jsSplitSpace option_ ++ [input_image, "-o", output_image, logging]

/-- src/webpconverter.js line 78: the default of the `logging` parameter. -/
def cwebpDefaultLogging : String := "-quiet"

/-- src/webpconverter.js `executeCommand`: await the promisified `execFile`.
The promise rejects when the binary cannot be spawned or the process exits
non-zero; on a zero exit `executeCommand` resolves with the captured
`{stdout, stderr}` pair (a non-empty stderr is only logged as a warning,
never treated as failure).  The catch block logs and rethrows, leaving the
rejection unchanged. -/
def executeCommand (binaryPath : String) (args : List String)
    (outcome : ExecOutcome) : Except JsError (String × String) :=
  match outcome with
  | ExecOutcome.spawnError msg =>
      Except.error (JsError.toolSpawnError binaryPath msg)
  | ExecOutcome.exited code stdout stderr =>
      if code = 0 then Except.ok (stdout, stderr)
      else Except.error (JsError.toolExitError binaryPath code stdout stderr)

/-- src/webpconverter.js `module.exports.cwebp` as run inside the pipeline:
resolve the binary (throwing on an unsupported platform), build the
argument list with the default `-quiet` logging argument, and run it.  The
spawned tool, when it actually runs, writes `env.toolOutput` (if any) to
the output path. -/
def runCwebp (platformKey input_image output_image option_ : String)
    (env : Env) (st : FsState) :
    Except JsError (String × String) × FsState × List Event :=
  match getCwebpPath platformKey with
  | Except.error e => (Except.error e, st, [])
  | Except.ok binary =>
      let args := jsCwebpArgs option_ input_image output_image cwebpDefaultLogging
      let st1 : FsState :=
        match env.execOutcome, env.toolOutput with
        | ExecOutcome.exited _ _ _, some bytes => fsWrite st output_image bytes
        | _, _ => st
      (executeCommand binary args env.execOutcome, st1,
       [Event.toolInvoked binary args])

/-- src/buffer_utils.js lines 24-25: the temp file pair derived from the
resolved temp directory, the generated identifier and the source image
type. -/
def tempPaths (tempDir filename imageType : String) : String × String :=
  (pathJoin tempDir (filename ++ "." ++ imageType),
   pathJoin tempDir (filename ++ ".webp"))

/-- src/buffer_utils.js lines 29-40, the body of the `try` block: write the
input buffer to the input temp file, run cwebp, read the output file back
(a missing output file rejects), and return its bytes. -/
def tryConvert (platformKey : String) (inputBuffer : List Nat)
    (option_ inputFilePath outputFilePath : String)
    (env : Env) (st : FsState) :
    Except JsError (List Nat) × FsState × List Event :=
  match env.writeDenied with
  | some msg => (Except.error (JsError.writeError inputFilePath msg), st, [])
  | none =>
      let st1 := fsWrite st inputFilePath inputBuffer
      match runCwebp platformKey inputFilePath outputFilePath option_ env st1 with
      | (Except.error e, st2, tr2) =>
          (Except.error e, st2, Event.fileWritten inputFilePath :: tr2)
      | (Except.ok _, st2, tr2) =>
          match fsLookup st2 outputFilePath with
          | none =>
              (Except.error (JsError.readError outputFilePath), st2,
               Event.fileWritten inputFilePath :: tr2)
          | some bytes =>
              (Except.ok bytes, st2,
               Event.fileWritten inputFilePath ::
                 (tr2 ++ [Event.fileRead outputFilePath]))

/-- src/buffer_utils.js lines 47-50, the `finally` block:
`await fs.rm(inputFilePath, { force: true })` then
`await fs.rm(outputFilePath, { force: true })`, applied to the pending
`try` outcome `r`.  JavaScript semantics of a throwing `finally`: a
rejection of the first removal propagates, replacing `r` and skipping the
second removal; a rejection of the second also replaces `r`; otherwise `r`
is delivered unchanged. -/
def runCleanup (inputFilePath outputFilePath : String) (env : Env)
    (r : Except JsError (List Nat)) (st : FsState) :
    Except JsError (List Nat) × FsState × List Event :=
  match fsRm st inputFilePath env.rmInputDenied with
  | (Except.error e, st3) =>
      (Except.error e, st3, [Event.removeAttempted inputFilePath])
  | (Except.ok _, st3) =>
      match fsRm st3 outputFilePath env.rmOutputDenied with
      | (Except.error e, st4) =>
          (Except.error e, st4,
           [Event.removeAttempted inputFilePath,
            Event.removeAttempted outputFilePath])
      | (Except.ok _, st4) =>
          (r, st4,
           [Event.removeAttempted inputFilePath,
            Event.removeAttempted outputFilePath])

/-- src/buffer_utils.js `convertToWebpBuffer`: generate the uuid, resolve
the temp directory (outside the `try`: its failure propagates with no
cleanup), derive the temp file pair, run the `try` block, and run the
`finally` cleanup on its outcome; the catch block only logs and rethrows,
so the `try` outcome reaches the `finally` unchanged. -/
def convertToWebpBuffer (platformKey : String) (inputBuffer : List Nat)
    (imageType option_ : String) (extra_path : Option String)
    (env : Env) (st : FsState) :
    Except JsError (List Nat) × FsState × List Event :=
  let filename := env.uuidValue
  match getTempPath extra_path env st with
  | (Except.error e, st1, tr1) => (Except.error e, st1, tr1)
  | (Except.ok tempDir, st1, tr1) =>
      let inputFilePath := (tempPaths tempDir filename imageType).1
      let outputFilePath := (tempPaths tempDir filename imageType).2
      match tryConvert platformKey inputBuffer option_ inputFilePath
          outputFilePath env st1 with
      | (r, st2, tr2) =>
          match runCleanup inputFilePath outputFilePath env r st2 with
          | (r2, st3, tr3) => (r2, st3, tr1 ++ tr2 ++ tr3)

/-- src/buffer_utils.js `buffer2webp`: a direct call of the core
function. -/
def buffer2webp (platformKey : String) (buffer : List Nat)
    (image_type option_ : String) (extra_path : Option String)
    (env : Env) (st : FsState) :
    Except JsError (List Nat) × FsState × List Event :=
  convertToWebpBuffer platformKey buffer image_type option_ extra_path env st

/-- The value of a base64-alphabet character, Node flavour: the standard
alphabet plus the URL-safe aliases accepted by `Buffer.from(s, 'base64')`;
every other character has no value. -/
def base64CharVal (c : Char) : Option Nat :=
  if 'A' ≤ c ∧ c ≤ 'Z' then some (c.toNat - 65)
  else if 'a' ≤ c ∧ c ≤ 'z' then some (c.toNat - 97 + 26)
  else if '0' ≤ c ∧ c ≤ '9' then some (c.toNat - 48 + 52)
  else if c = '+' ∨ c = '-' then some 62
  else if c = '/' ∨ c = '_' then some 63
  else none

/-- Turn a stream of 6-bit values into bytes: full groups of four give
three bytes, a trailing pair or triple gives one or two bytes, a lone
trailing value is dropped. -/
def base64DecodeVals : List Nat → List Nat
  | a :: b :: c :: d :: rest =>
      (a * 4 + b / 16) :: ((b % 16) * 16 + c / 4) :: ((c % 4) * 64 + d) ::
        base64DecodeVals rest
  | [a, b] => [a * 4 + b / 16]
  | [a, b, c] => [a * 4 + b / 16, (b % 16) * 16 + c / 4]
  | _ => []

/-- Modelled from Node `Buffer.from(base64str, 'base64')`: a total,
forgiving decoder.  Characters outside the (standard or URL-safe) base64
alphabet, including `=` padding and whitespace, are skipped, and the
remaining values are decoded; malformed input never raises. -/
def bufferFromBase64 (s : String) : List Nat :=
  base64DecodeVals (s.data.filterMap base64CharVal)

/-- The standard base64 alphabet, for encoding. -/
def base64Alphabet : List Char :=
  "ABCDEFGHIJKLMNOPQRSTUVWXYZabcdefghijklmnopqrstuvwxyz0123456789+/".data

/-- The `n`-th base64 alphabet character. -/
def base64EncodeChar (n : Nat) : Char :=
  base64Alphabet.getD n 'A'

/-- Bytes to base64 characters with `=` padding, as
`buffer.toString('base64')` produces. -/
def base64EncodeGroups : List Nat → List Char
  | b1 :: b2 :: b3 :: rest =>
      base64EncodeChar (b1 / 4) ::
        base64EncodeChar ((b1 % 4) * 16 + b2 / 16) ::
        base64EncodeChar ((b2 % 16) * 4 + b3 / 64) ::
        base64EncodeChar (b3 % 64) :: base64EncodeGroups rest
  | [b1, b2] =>
      [base64EncodeChar (b1 / 4), base64EncodeChar ((b1 % 4) * 16 + b2 / 16),
       base64EncodeChar ((b2 % 16) * 4), '=']
  | [b1] =>
      [base64EncodeChar (b1 / 4), base64EncodeChar ((b1 % 4) * 16), '=', '=']
  | [] => []

/-- Modelled from Node `buffer.toString('base64')`. -/
def base64Encode (bytes : List Nat) : String :=
  String.mk (base64EncodeGroups bytes)

/-- src/buffer_utils.js `base64str2webp`: decode the input string with
`Buffer.from(…, 'base64')` (total, never rejects), run the core conversion
on the decoded bytes, and encode a successful result back to base64; an
error of the core conversion propagates unchanged. -/
def base64str2webp (platformKey : String) (base64str imageType option_ : String)
    (extra_path : Option String) (env : Env) (st : FsState) :
    Except JsError String × FsState × List Event :=
  let inputBuffer := bufferFromBase64 base64str
  match convertToWebpBuffer platformKey inputBuffer imageType option_
      extra_path env st with
  | (Except.ok bytes, st1, tr1) => (Except.ok (base64Encode bytes), st1, tr1)
  | (Except.error e, st1, tr1) => (Except.error e, st1, tr1)

/-- Modelled from the spec: §4.5 describes `convertBase64` as the pure
composition "decode `base64Input` to bytes, delegate to §4.4, encode result
bytes to base64, return", with no additional state.  This definition follows
those words, to be compared with the source's `base64str2webp`. -/
def specBase64Composition (platformKey : String)
    (base64str imageType option_ : String) (extra_path : Option String)
    (env : Env) (st : FsState) :
    Except JsError String × FsState × List Event :=
  let piped := convertToWebpBuffer platformKey (bufferFromBase64 base64str)
    imageType option_ extra_path env st
  (Except.map base64Encode piped.1, piped.2.1, piped.2.2)

/-- The call reaches step 4 (the temp-file write) of the pipeline: the
resolved temp directory either already exists or its creation is not
denied, so `getTempPath` succeeds and the `try` block is entered. -/
def reachesStep4 (extra_path : Option String) (env : Env) (st : FsState) : Prop :=
  resolveTarget extra_path ∈ st.dirs ∨ env.mkdirDenied = none

/-- Is `c` a lowercase hexadecimal digit? -/
def isLowerHexDigit (c : Char) : Bool :=
  ('0' ≤ c && c ≤ '9') || ('a' ≤ c && c ≤ 'f')

/-- The character allowed at position `i` of a canonically formatted uuid:
a dash at positions 8, 13, 18 and 23, a lowercase hex digit elsewhere. -/
def uuidCharOk (i : Nat) (c : Char) : Bool :=
  if i == 8 || i == 13 || i == 18 || i == 23 then c == '-' else isLowerHexDigit c

/-- The canonical format of the identifiers `uuid()` (uuid v4, as used by
src/buffer_utils.js line 22) returns: 36 characters, hex digits in the
8-4-4-4-12 layout with dashes between the groups.  The fixed version and
variant digits of v4 are not constrained; only the shape matters here. -/
def uuidFormat (s : String) : Bool :=
  (s.data.length == 36) && s.data.enum.all (fun p => uuidCharOk p.1 p.2)

/-- Is `c` a character of the standard base64 alphabet (no padding)? -/
def isStdBase64Char (c : Char) : Bool :=
  ('A' ≤ c && c ≤ 'Z') || ('a' ≤ c && c ≤ 'z') || ('0' ≤ c && c ≤ '9') ||
    c == '+' || c == '/'

/-- Modelled from the spec: what §4.5 and §8 call well-formed base64 — a
string of standard-alphabet characters in groups of four, with at most two
`=` padding characters at the end. -/
def isWellFormedBase64 (s : String) : Bool :=
  let l := s.data
  let core := (l.reverse.dropWhile (fun c => c == '=')).reverse
  (l.length % 4 == 0) && decide (l.length - core.length ≤ 2) &&
    core.all isStdBase64Char

/-- A benign environment for concrete runs: a fixed uuid, no filesystem
denials, the tool exits 0 with informational stderr text and writes the
bytes `[1, 2]` to its output path. -/
def envOk : Env :=
  { uuidValue := "aaaaaaaa-aaaa-4aaa-8aaa-aaaaaaaaaaaa"
    mkdirDenied := none
    writeDenied := none
    execOutcome := ExecOutcome.exited 0 "" "Saving file output"
    toolOutput := some [1, 2]
    rmInputDenied := none
    rmOutputDenied := none }

/-- An environment whose `fs.writeFile` is denied. -/
def envWriteDenied : Env :=
  { uuidValue := "aaaaaaaa-aaaa-4aaa-8aaa-aaaaaaaaaaaa"
    mkdirDenied := none
    writeDenied := some "EACCES"
    execOutcome := ExecOutcome.exited 0 "" ""
    toolOutput := none
    rmInputDenied := none
    rmOutputDenied := none }

/-- A benign environment except that removing the existing input temp file
is denied (a non-ENOENT `fs.rm` rejection in the `finally` block). -/
def envRmDenied : Env :=
  { uuidValue := "aaaaaaaa-aaaa-4aaa-8aaa-aaaaaaaaaaaa"
    mkdirDenied := none
    writeDenied := none
    execOutcome := ExecOutcome.exited 0 "" "Saving file output"
    toolOutput := some [1, 2]
    rmInputDenied := some "EACCES"
    rmOutputDenied := none }

/-- The empty filesystem. -/
def fs0 : FsState := { dirs := [], files := [] }


lemma string_data_ne_nil (d : String) (h : d ≠ "") : d.data ≠ [] :=
  fun hh => h (String.ext hh)

lemma joined_data (d n : String) : (d ++ "/" ++ n).data = d.data ++ '/' :: n.data := by
  have hs : ("/" : String).data = ['/'] := rfl
  rw [String.data_append, String.data_append, hs, List.append_assoc]
  rfl

lemma splitSlashChars_single (n : List Char) (hn : '/' ∉ n) : ∀ acc,
    splitSlashChars n acc = [acc.reverse ++ n] := by
  induction n with
  | nil => intro acc; simp [splitSlashChars]
  | cons c rest ih =>
    intro acc
    have hc : c ≠ '/' := fun hh => hn (hh ▸ List.mem_cons_self c rest)
    have hrest : '/' ∉ rest := fun hh => hn (List.mem_cons_of_mem c hh)
    rw [show splitSlashChars (c :: rest) acc = splitSlashChars rest (c :: acc) by
      simp [splitSlashChars, hc]]
    rw [ih hrest (c :: acc)]
    simp

lemma splitSlashChars_append (d n : List Char) (hn : '/' ∉ n) : ∀ acc,
    splitSlashChars (d ++ '/' :: n) acc = splitSlashChars d acc ++ [n] := by
  induction d with
  | nil =>
    intro acc
    rw [List.nil_append,
      show splitSlashChars ('/' :: n) acc = acc.reverse :: splitSlashChars n [] by
        simp [splitSlashChars],
      splitSlashChars_single n hn []]
    simp [splitSlashChars]
  | cons c d' ih =>
    intro acc
    by_cases hc : c = '/'
    · subst hc
      rw [List.cons_append,
        show splitSlashChars ('/' :: (d' ++ '/' :: n)) acc =
          acc.reverse :: splitSlashChars (d' ++ '/' :: n) [] by simp [splitSlashChars],
        ih [],
        show splitSlashChars ('/' :: d') acc = acc.reverse :: splitSlashChars d' [] by
          simp [splitSlashChars]]
      rfl
    · rw [List.cons_append,
        show splitSlashChars (c :: (d' ++ '/' :: n)) acc =
          splitSlashChars (d' ++ '/' :: n) (c :: acc) by simp [splitSlashChars, hc],
        ih (c :: acc),
        show splitSlashChars (c :: d') acc = splitSlashChars d' (c :: acc) by
          simp [splitSlashChars, hc]]

lemma normStep_normal (isAbs : Bool) (stack : List (List Char)) (n : List Char)
    (h1 : n ≠ []) (h2 : n ≠ ['.']) (h3 : n ≠ ['.', '.']) :
    normStep isAbs stack n = n :: stack := by
  unfold normStep
  rw [if_neg (by simp [h1, h2]), if_neg h3]

lemma normSegs_append_normal (isAbs : Bool) (n : List Char)
    (h1 : n ≠ []) (h2 : n ≠ ['.']) (h3 : n ≠ ['.', '.']) :
    ∀ (segs : List (List Char)) (stack : List (List Char)),
      normSegs isAbs (segs ++ [n]) stack = normSegs isAbs segs stack ++ [n] := by
  intro segs
  induction segs with
  | nil =>
    intro stack
    rw [List.nil_append,
      show normSegs isAbs [n] stack = normSegs isAbs [] (normStep isAbs stack n)
        from rfl,
      normStep_normal isAbs stack n h1 h2 h3]
    simp [normSegs]
  | cons s rest ih =>
    intro stack
    rw [List.cons_append,
      show normSegs isAbs (s :: (rest ++ [n])) stack =
        normSegs isAbs (rest ++ [n]) (normStep isAbs stack s) from rfl,
      ih (normStep isAbs stack s)]
    rfl

lemma renderSegs_snoc (ts : List (List Char)) (n : List Char) (h : ts ≠ []) :
    renderSegs (ts ++ [n]) = renderSegs ts ++ '/' :: n := by
  induction ts with
  | nil => exact absurd rfl h
  | cons t ts2 ih =>
    cases ts2 with
    | nil => rfl
    | cons t2 ts3 =>
      rw [show ((t :: t2 :: ts3) ++ [n]) = t :: ((t2 :: ts3) ++ [n]) from rfl]
      rw [show renderSegs (t :: ((t2 :: ts3) ++ [n])) =
        t ++ '/' :: renderSegs ((t2 :: ts3) ++ [n]) by
          cases h3 : (t2 :: ts3) ++ [n] with
          | nil => simp at h3
          | cons u us => rfl]
      rw [ih (by simp)]
      rw [show renderSegs (t :: t2 :: ts3) = t ++ '/' :: renderSegs (t2 :: ts3) from rfl]
      simp

lemma renderSegs_append_single_ne_nil (ts : List (List Char)) (n : List Char)
    (hn : n ≠ []) : renderSegs (ts ++ [n]) ≠ [] := by
  cases ts with
  | nil => simpa using hn
  | cons t ts2 =>
    rw [renderSegs_snoc (t :: ts2) n (by simp)]
    simp

lemma renderSegs_append_single_inj (ts : List (List Char)) (x1 x2 : List Char)
    (h : renderSegs (ts ++ [x1]) = renderSegs (ts ++ [x2])) : x1 = x2 := by
  cases ts with
  | nil => simpa using h
  | cons t ts2 =>
    rw [renderSegs_snoc (t :: ts2) x1 (by simp),
      renderSegs_snoc (t :: ts2) x2 (by simp)] at h
    have h2 := List.append_cancel_left h
    injection h2

lemma pathNormalize_segment (n : String) (h : normalSegment n) :
    pathNormalize n = n := by
  obtain ⟨h1, h2, h3, h4⟩ := h
  have habs : decide (n.data.head? = some '/') = false := by
    rw [decide_eq_false_iff_not]
    intro hh
    rcases hl : n.data with _ | ⟨c, rest⟩
    · rw [hl] at hh; simp at hh
    · rw [hl] at hh
      simp at hh
      exact h2 (by rw [hl, hh]; exact List.mem_cons_self _ _)
  unfold pathNormalize
  rw [habs]
  dsimp only
  rw [splitSlashChars_single n.data h2 []]
  simp only [List.reverse_nil, List.nil_append]
  rw [show normSegs false [n.data] [] = normSegs false [] (normStep false [] n.data)
      from rfl,
    normStep_normal false [] n.data h1 h3 h4,
    show normSegs false [] [n.data] = [n.data] from rfl,
    show renderSegs [n.data] = n.data from rfl,
    if_neg (show ¬ false = true by simp), if_neg h1]

lemma pathJoin_seg_inj (d n1 n2 : String) (hn1 : normalSegment n1)
    (hn2 : normalSegment n2) (h : pathJoin d n1 = pathJoin d n2) : n1 = n2 := by
  by_cases hd : d = ""
  · subst hd
    unfold pathJoin at h
    rw [if_pos rfl, if_pos rfl] at h
    rwa [pathNormalize_segment n1 hn1, pathNormalize_segment n2 hn2] at h
  · obtain ⟨h1a, h1b, h1c, h1d⟩ := hn1
    obtain ⟨h2a, h2b, h2c, h2d⟩ := hn2
    have hne1 : n1 ≠ "" := fun hh => h1a (congrArg String.data hh)
    have hne2 : n2 ≠ "" := fun hh => h2a (congrArg String.data hh)
    have hdd := string_data_ne_nil d hd
    have hhead : ∀ m : String, (d ++ "/" ++ m).data.head? = d.data.head? := by
      intro m
      rw [joined_data]
      rcases hl : d.data with _ | ⟨c, rest⟩
      · exact absurd hl hdd
      · rfl
    unfold pathJoin at h
    rw [if_neg hd, if_neg hd, if_neg hne1, if_neg hne2] at h
    unfold pathNormalize at h
    dsimp only at h
    rw [hhead n1, hhead n2, joined_data d n1, joined_data d n2,
      splitSlashChars_append d.data n1.data h1b [],
      splitSlashChars_append d.data n2.data h2b [],
      normSegs_append_normal _ n1.data h1a h1c h1d _ [],
      normSegs_append_normal _ n2.data h2a h2c h2d _ []] at h
    cases hA : decide (d.data.head? = some '/') with
    | true =>
      rw [hA, if_pos rfl, if_pos rfl] at h
      have h5 := congrArg String.data h
      have h6 : '/' :: renderSegs
          (normSegs true (splitSlashChars d.data []) [] ++ [n1.data]) =
          '/' :: renderSegs
          (normSegs true (splitSlashChars d.data []) [] ++ [n2.data]) := h5
      injection h6 with _ h7
      exact String.ext (renderSegs_append_single_inj _ _ _ h7)
    | false =>
      rw [hA, if_neg (show ¬ false = true by simp),
        if_neg (show ¬ false = true by simp),
        if_neg (renderSegs_append_single_ne_nil _ n1.data h1a),
        if_neg (renderSegs_append_single_ne_nil _ n2.data h2a)] at h
      have h5 := congrArg String.data h
      have h6 : renderSegs
          (normSegs false (splitSlashChars d.data []) [] ++ [n1.data]) =
          renderSegs
          (normSegs false (splitSlashChars d.data []) [] ++ [n2.data]) := h5
      exact String.ext (renderSegs_append_single_inj _ _ _ h6)

lemma append_suffix_inj (u1 u2 s1 s2 : String)
    (hlen : u1.data.length = u2.data.length) (h : u1 ++ s1 = u2 ++ s2) :
    u1 = u2 ∧ s1 = s2 := by
  have h2 := congrArg String.data h
  rw [String.data_append, String.data_append] at h2
  have h3 := List.append_inj h2 hlen
  exact ⟨String.ext h3.1, String.ext h3.2⟩

lemma uuidFormat_length (s : String) (h : uuidFormat s = true) :
    s.data.length = 36 := by
  unfold uuidFormat at h
  rw [Bool.and_eq_true] at h
  simpa using h.1

lemma all_enumFrom_snd (P : Nat × Char → Bool) :
    ∀ (l : List Char) (n : Nat), (List.enumFrom n l).all P = true →
      ∀ c ∈ l, ∃ i, P (i, c) = true := by
  intro l
  induction l with
  | nil => intro n h c hc; simp at hc
  | cons a l ih =>
    intro n h c hc
    rw [show List.enumFrom n (a :: l) = (n, a) :: List.enumFrom (n + 1) l
      from rfl, List.all_cons, Bool.and_eq_true] at h
    rcases List.mem_cons.mp hc with hc | hc
    · exact ⟨n, hc ▸ h.1⟩
    · exact ih (n + 1) h.2 c hc

lemma uuidFormat_no_slash (s : String) (h : uuidFormat s = true) :
    '/' ∉ s.data := by
  unfold uuidFormat at h
  rw [Bool.and_eq_true] at h
  intro hmem
  obtain ⟨i, hi⟩ := all_enumFrom_snd (fun p => uuidCharOk p.1 p.2) s.data 0
    h.2 '/' hmem
  dsimp only at hi
  unfold uuidCharOk at hi
  by_cases hc : (i == 8 || i == 13 || i == 18 || i == 23) = true
  · rw [if_pos hc] at hi
    exact absurd hi (by decide)
  · rw [if_neg hc] at hi
    exact absurd hi (by decide)

lemma name_data (u t : String) : (u ++ "." ++ t).data = u.data ++ '.' :: t.data := by
  have hs : ("." : String).data = ['.'] := rfl
  rw [String.data_append, String.data_append, hs, List.append_assoc]
  rfl

lemma name_normalSegment (u t : String) (hu : uuidFormat u = true)
    (ht : '/' ∉ t.data) : normalSegment (u ++ "." ++ t) := by
  have hlen := uuidFormat_length u hu
  have hus := uuidFormat_no_slash u hu
  refine ⟨?_, ?_, ?_, ?_⟩
  · rw [name_data]
    intro hh
    have := congrArg List.length hh
    simp [hlen] at this
  · rw [name_data]
    intro hh
    rcases List.mem_append.mp hh with hh | hh
    · exact hus hh
    · rcases List.mem_cons.mp hh with hh | hh
      · exact absurd hh (by decide)
      · exact ht hh
  · rw [name_data]
    intro hh
    have := congrArg List.length hh
    simp [hlen] at this
    omega
  · rw [name_data]
    intro hh
    have := congrArg List.length hh
    simp [hlen] at this
    omega

lemma webp_name_eq (u : String) : u ++ ".webp" = u ++ "." ++ "webp" := by
  rw [String.append_assoc]
  exact congrArg (fun x => u ++ x) (by decide : (".webp" : String) = "." ++ "webp")

lemma tempPaths_fst_ne_snd (d u t : String) (hu : uuidFormat u = true)
    (ht : '/' ∉ t.data) (hw : t ≠ "webp") :
    (tempPaths d u t).1 ≠ (tempPaths d u t).2 := by
  intro h
  unfold tempPaths at h
  dsimp only at h
  rw [webp_name_eq u] at h
  have hname := pathJoin_seg_inj d _ _ (name_normalSegment u t hu ht)
    (name_normalSegment u "webp" hu (by decide)) h
  rw [String.append_assoc, String.append_assoc] at hname
  have h2 := (append_suffix_inj u u _ _ rfl hname).2
  have h3 := congrArg String.data h2
  rw [String.data_append, String.data_append] at h3
  have h4 : '.' :: t.data = '.' :: "webp".data := h3
  injection h4 with _ h5
  exact hw (String.ext h5)

lemma find?_filter_self (l : List (String × List Nat)) (p : String) :
    ((l.filter fun e => e.1 ≠ p).find? fun e => e.1 = p) = none := by
  rw [List.find?_eq_none]
  intro a ha
  rw [List.mem_filter] at ha
  simp only [decide_eq_true_eq] at ha ⊢
  exact ha.2

lemma find?_filter_other (l : List (String × List Nat)) (p q : String) (h : q ≠ p) :
    ((l.filter fun e => e.1 ≠ p).find? fun e => e.1 = q) = l.find? fun e => e.1 = q := by
  induction l with
  | nil => rfl
  | cons a l ih =>
    rw [List.filter_cons]
    by_cases hap : a.1 = p
    · rw [if_neg (by simp [hap]), ih,
        List.find?_cons_of_neg _ (by simp [hap]; exact fun hh => h hh.symm)]
    · rw [if_pos (by simp [hap])]
      by_cases haq : a.1 = q
      · rw [List.find?_cons_of_pos _ (by simp [haq]),
          List.find?_cons_of_pos _ (by simp [haq])]
      · rw [List.find?_cons_of_neg _ (by simp [haq]),
          List.find?_cons_of_neg _ (by simp [haq]), ih]

lemma fsLookup_fsRemoveFile_self (st : FsState) (p : String) :
    fsLookup (fsRemoveFile st p) p = none := by
  unfold fsLookup fsRemoveFile
  rw [find?_filter_self]
  rfl

lemma fsLookup_fsRemoveFile_other (st : FsState) (p q : String) (h : q ≠ p) :
    fsLookup (fsRemoveFile st p) q = fsLookup st q := by
  unfold fsLookup fsRemoveFile
  rw [find?_filter_other st.files p q h]

lemma fsLookup_fsWrite_self (st : FsState) (p : String) (b : List Nat) :
    fsLookup (fsWrite st p b) p = some b := by
  unfold fsLookup fsWrite
  rw [List.find?_cons_of_pos _ (by simp)]
  rfl

lemma fsLookup_fsWrite_other (st : FsState) (p q : String) (b : List Nat)
    (h : q ≠ p) : fsLookup (fsWrite st p b) q = fsLookup st q := by
  unfold fsLookup fsWrite
  rw [List.find?_cons_of_neg _ (by simp; exact fun hh => h hh.symm),
    find?_filter_other st.files p q h]

lemma fsLookup_files_eq (st st' : FsState) (h : st.files = st'.files)
    (p : String) : fsLookup st p = fsLookup st' p := by
  unfold fsLookup
  rw [h]

lemma fsRemoveFile_absent (st : FsState) (p : String)
    (h : fsLookup st p = none) : fsRemoveFile st p = st := by
  have hfind : st.files.find? (fun e => e.1 = p) = none := by
    unfold fsLookup at h
    exact Option.map_eq_none'.mp h
  have hfilter : st.files.filter (fun e => e.1 ≠ p) = st.files := by
    rw [List.filter_eq_self]
    intro a ha
    simp only [decide_eq_true_eq]
    have := List.find?_eq_none.mp hfind a ha
    simpa using this
  unfold fsRemoveFile
  rw [hfilter]

lemma fsRm_none (st : FsState) (p : String) :
    fsRm st p none = (Except.ok (), fsRemoveFile st p) := by
  unfold fsRm
  cases h : fsLookup st p with
  | none => rw [fsRemoveFile_absent st p h]
  | some b => rfl

lemma runCleanup_ok (inP outP : String) (env : Env)
    (r : Except JsError (List Nat)) (st : FsState)
    (h1 : env.rmInputDenied = none) (h2 : env.rmOutputDenied = none) :
    runCleanup inP outP env r st =
      (r, fsRemoveFile (fsRemoveFile st inP) outP,
       [Event.removeAttempted inP, Event.removeAttempted outP]) := by
  unfold runCleanup
  rw [h1, h2, fsRm_none]
  dsimp only
  rw [fsRm_none]

lemma runCleanup_trace_head (inP outP : String) (env : Env)
    (r : Except JsError (List Nat)) (st : FsState) :
    ∃ rest, (runCleanup inP outP env r st).2.2 =
      Event.removeAttempted inP :: rest := by
  unfold runCleanup
  rcases hr1 : fsRm st inP env.rmInputDenied with ⟨e1, st3⟩
  cases e1 with
  | error e => exact ⟨[], by simp [hr1]⟩
  | ok u =>
    rcases hr2 : fsRm st3 outP env.rmOutputDenied with ⟨e2, st4⟩
    cases e2 with
    | error e => exact ⟨[Event.removeAttempted outP], by simp [hr1, hr2]⟩
    | ok u2 => exact ⟨[Event.removeAttempted outP], by simp [hr1, hr2]⟩

lemma getTempPath_ok (extra_path : Option String) (env : Env) (st : FsState)
    (h : reachesStep4 extra_path env st) :
    (getTempPath extra_path env st).1 = Except.ok (resolveTarget extra_path) := by
  unfold getTempPath
  rcases h with h | h
  · simp [h]
  · by_cases hc : resolveTarget extra_path ∈ st.dirs <;> simp [hc, h]

lemma getTempPath_files (extra_path : Option String) (env : Env) (st : FsState) :
    ((getTempPath extra_path env st).2.1).files = st.files := by
  unfold getTempPath
  by_cases hc : resolveTarget extra_path ∈ st.dirs
  · simp [hc]
  · cases hm : env.mkdirDenied <;> simp [hc, hm]

lemma convert_eq_of_reaches (platformKey : String) (inputBuffer : List Nat)
    (imageType option_ : String) (extra_path : Option String) (env : Env)
    (st : FsState) (h : reachesStep4 extra_path env st) :
    convertToWebpBuffer platformKey inputBuffer imageType option_ extra_path env st =
      ((runCleanup
          (tempPaths (resolveTarget extra_path) env.uuidValue imageType).1
          (tempPaths (resolveTarget extra_path) env.uuidValue imageType).2 env
          (tryConvert platformKey inputBuffer option_
            (tempPaths (resolveTarget extra_path) env.uuidValue imageType).1
            (tempPaths (resolveTarget extra_path) env.uuidValue imageType).2
            env (getTempPath extra_path env st).2.1).1
          (tryConvert platformKey inputBuffer option_
            (tempPaths (resolveTarget extra_path) env.uuidValue imageType).1
            (tempPaths (resolveTarget extra_path) env.uuidValue imageType).2
            env (getTempPath extra_path env st).2.1).2.1).1,
       (runCleanup
          (tempPaths (resolveTarget extra_path) env.uuidValue imageType).1
          (tempPaths (resolveTarget extra_path) env.uuidValue imageType).2 env
          (tryConvert platformKey inputBuffer option_
            (tempPaths (resolveTarget extra_path) env.uuidValue imageType).1
            (tempPaths (resolveTarget extra_path) env.uuidValue imageType).2
            env (getTempPath extra_path env st).2.1).1
          (tryConvert platformKey inputBuffer option_
            (tempPaths (resolveTarget extra_path) env.uuidValue imageType).1
            (tempPaths (resolveTarget extra_path) env.uuidValue imageType).2
            env (getTempPath extra_path env st).2.1).2.1).2.1,
       (getTempPath extra_path env st).2.2 ++
         (tryConvert platformKey inputBuffer option_
           (tempPaths (resolveTarget extra_path) env.uuidValue imageType).1
           (tempPaths (resolveTarget extra_path) env.uuidValue imageType).2
           env (getTempPath extra_path env st).2.1).2.2 ++
         (runCleanup
           (tempPaths (resolveTarget extra_path) env.uuidValue imageType).1
           (tempPaths (resolveTarget extra_path) env.uuidValue imageType).2 env
           (tryConvert platformKey inputBuffer option_
             (tempPaths (resolveTarget extra_path) env.uuidValue imageType).1
             (tempPaths (resolveTarget extra_path) env.uuidValue imageType).2
             env (getTempPath extra_path env st).2.1).1
           (tryConvert platformKey inputBuffer option_
             (tempPaths (resolveTarget extra_path) env.uuidValue imageType).1
             (tempPaths (resolveTarget extra_path) env.uuidValue imageType).2
             env (getTempPath extra_path env st).2.1).2.1).2.2) := by
  have h1 := getTempPath_ok extra_path env st h
  unfold convertToWebpBuffer
  rcases hg : getTempPath extra_path env st with ⟨r1, st1, tr1⟩
  rw [hg] at h1
  simp only at h1
  subst h1
  rcases ht : tryConvert platformKey inputBuffer option_
      (tempPaths (resolveTarget extra_path) env.uuidValue imageType).1
      (tempPaths (resolveTarget extra_path) env.uuidValue imageType).2
      env st1 with ⟨r2, st2, tr2⟩
  rcases hc : runCleanup
      (tempPaths (resolveTarget extra_path) env.uuidValue imageType).1
      (tempPaths (resolveTarget extra_path) env.uuidValue imageType).2
      env r2 st2 with ⟨r3, st3, tr3⟩
  simp [ht, hc]

lemma convert_eq_clean (platformKey : String) (inputBuffer : List Nat)
    (imageType option_ : String) (extra_path : Option String) (env : Env)
    (st : FsState) (h : reachesStep4 extra_path env st)
    (hrm1 : env.rmInputDenied = none) (hrm2 : env.rmOutputDenied = none) :
    convertToWebpBuffer platformKey inputBuffer imageType option_ extra_path env st =
      ((tryConvert platformKey inputBuffer option_
          (tempPaths (resolveTarget extra_path) env.uuidValue imageType).1
          (tempPaths (resolveTarget extra_path) env.uuidValue imageType).2
          env (getTempPath extra_path env st).2.1).1,
       fsRemoveFile
         (fsRemoveFile
           (tryConvert platformKey inputBuffer option_
             (tempPaths (resolveTarget extra_path) env.uuidValue imageType).1
             (tempPaths (resolveTarget extra_path) env.uuidValue imageType).2
             env (getTempPath extra_path env st).2.1).2.1
           (tempPaths (resolveTarget extra_path) env.uuidValue imageType).1)
         (tempPaths (resolveTarget extra_path) env.uuidValue imageType).2,
       (getTempPath extra_path env st).2.2 ++
         (tryConvert platformKey inputBuffer option_
           (tempPaths (resolveTarget extra_path) env.uuidValue imageType).1
           (tempPaths (resolveTarget extra_path) env.uuidValue imageType).2
           env (getTempPath extra_path env st).2.1).2.2 ++
         [Event.removeAttempted
            (tempPaths (resolveTarget extra_path) env.uuidValue imageType).1,
          Event.removeAttempted
            (tempPaths (resolveTarget extra_path) env.uuidValue imageType).2]) := by
  rw [convert_eq_of_reaches platformKey inputBuffer imageType option_
    extra_path env st h,
    runCleanup_ok _ _ env _ _ hrm1 hrm2]

lemma splitSpaceChars_ne_nil (l : List Char) : ∀ acc, splitSpaceChars l acc ≠ [] := by
  induction l with
  | nil => intro acc; simp [splitSpaceChars]
  | cons c rest ih =>
    intro acc
    by_cases hc : c = ' '
    · subst hc; simp [splitSpaceChars]
    · simp [splitSpaceChars, hc]
      exact ih _

lemma joinWithSpace_splitSpaceChars (l : List Char) : ∀ acc,
    joinWithSpace (splitSpaceChars l acc) = acc.reverse ++ l := by
  induction l with
  | nil => intro acc; simp [splitSpaceChars, joinWithSpace]
  | cons c rest ih =>
    intro acc
    by_cases hc : c = ' '
    · subst hc
      have heq : splitSpaceChars (' ' :: rest) acc =
          acc.reverse :: splitSpaceChars rest [] := by
        simp [splitSpaceChars]
      rw [heq]
      obtain ⟨u, us, hu⟩ : ∃ u us, splitSpaceChars rest [] = u :: us := by
        rcases hs : splitSpaceChars rest [] with _ | ⟨u, us⟩
        · exact absurd hs (splitSpaceChars_ne_nil rest [])
        · exact ⟨u, us, rfl⟩
      rw [hu]
      have hjoin : joinWithSpace (acc.reverse :: u :: us) =
          acc.reverse ++ ' ' :: joinWithSpace (u :: us) := rfl
      rw [hjoin, ← hu, ih []]
      simp
    · have heq : splitSpaceChars (c :: rest) acc =
          splitSpaceChars rest (c :: acc) := by
        simp [splitSpaceChars, hc]
      rw [heq, ih (c :: acc)]
      simp

lemma splitSpaceChars_no_space (l : List Char) : ∀ acc, (∀ c ∈ acc, c ≠ ' ') →
    ∀ t ∈ splitSpaceChars l acc, ∀ c ∈ t, c ≠ ' ' := by
  induction l with
  | nil =>
    intro acc hacc t ht c hcin
    simp [splitSpaceChars] at ht
    subst ht
    exact hacc c (by simpa using hcin)
  | cons a rest ih =>
    intro acc hacc t ht c hcin
    by_cases ha : a = ' '
    · subst ha
      simp [splitSpaceChars] at ht
      rcases ht with ht | ht
      · subst ht
        exact hacc c (by simpa using hcin)
      · exact ih [] (by simp) t ht c hcin
    · simp [splitSpaceChars, ha] at ht
      refine ih (a :: acc) ?_ t ht c hcin
      intro x hx
      rcases List.mem_cons.mp hx with hx | hx
      · subst hx; exact ha
      · exact hacc x hx

lemma joinWithSpaceStr_jsSplitSpace (s : String) :
    joinWithSpaceStr (jsSplitSpace s) = s := by
  unfold joinWithSpaceStr jsSplitSpace
  rw [List.map_map]
  have hmap : (String.data ∘ String.mk) = fun x : List Char => x := rfl
  rw [hmap, List.map_id', joinWithSpace_splitSpaceChars s.data []]
  rfl

lemma tryConvert_trace_head (platformKey : String) (inputBuffer : List Nat)
    (option_ inP outP : String) (env : Env) (st : FsState)
    (hw : env.writeDenied = none) :
    ∃ rest, (tryConvert platformKey inputBuffer option_ inP outP env st).2.2 =
      Event.fileWritten inP :: rest := by
  unfold tryConvert
  rw [hw]
  dsimp only
  rcases hrc : runCwebp platformKey inP outP option_ env
      (fsWrite st inP inputBuffer) with ⟨rc, st2, tr2⟩
  cases rc with
  | error e => exact ⟨tr2, by simp [hrc]⟩
  | ok v =>
    cases hlk : fsLookup st2 outP with
    | none => exact ⟨tr2, by simp [hrc, hlk]⟩
    | some b => exact ⟨tr2 ++ [Event.fileRead outP], by simp [hrc, hlk]⟩

/-- C1 counterexample: a non-ENOENT rejection of `fs.rm` on the input temp
path in the `finally` block aborts the cleanup: the removal of the output
path is never attempted and both temp files are left on disk after the call
returns, refuting the claim that both removals are always attempted and
neither path survives. -/
theorem c1_counterexample :
    Event.removeAttempted
        (tempPaths (resolveTarget none) envRmDenied.uuidValue "png").2 ∉
      (convertToWebpBuffer "linux-x64" [1] "png" "-q 80" none envRmDenied
        fs0).2.2 ∧
    fsLookup (convertToWebpBuffer "linux-x64" [1] "png" "-q 80" none
        envRmDenied fs0).2.1
      (tempPaths (resolveTarget none) envRmDenied.uuidValue "png").1 =
      some [1] ∧
    fsLookup (convertToWebpBuffer "linux-x64" [1] "png" "-q 80" none
        envRmDenied fs0).2.1
      (tempPaths (resolveTarget none) envRmDenied.uuidValue "png").2 =
      some [1, 2] :=
  ⟨by decide, by decide, by decide⟩

/-- C1 as amended: for every call that reaches step 4, when the two forced
removals of the `finally` block themselves succeed (`force: true` already
covers the missing-file case), removal of both generated temp paths is
attempted before the call returns and neither path exists in the final
filesystem state; a non-ENOENT rejection of the input removal instead skips
the output removal and can leave the files behind. -/
theorem c1_cleanup_amended (platformKey : String) (inputBuffer : List Nat)
    (imageType option_ : String) (extra_path : Option String) (env : Env)
    (st : FsState) (h : reachesStep4 extra_path env st)
    (hrm1 : env.rmInputDenied = none) (hrm2 : env.rmOutputDenied = none) :
    fsLookup
        (convertToWebpBuffer platformKey inputBuffer imageType option_
          extra_path env st).2.1
        (tempPaths (resolveTarget extra_path) env.uuidValue imageType).1 = none ∧
    fsLookup
        (convertToWebpBuffer platformKey inputBuffer imageType option_
          extra_path env st).2.1
        (tempPaths (resolveTarget extra_path) env.uuidValue imageType).2 = none ∧
    Event.removeAttempted
        (tempPaths (resolveTarget extra_path) env.uuidValue imageType).1 ∈
      (convertToWebpBuffer platformKey inputBuffer imageType option_
        extra_path env st).2.2 ∧
    Event.removeAttempted
        (tempPaths (resolveTarget extra_path) env.uuidValue imageType).2 ∈
      (convertToWebpBuffer platformKey inputBuffer imageType option_
        extra_path env st).2.2 := by
  rw [convert_eq_clean platformKey inputBuffer imageType option_
    extra_path env st h hrm1 hrm2]
  dsimp only
  refine ⟨?_, ?_, ?_, ?_⟩
  · by_cases hpq :
      (tempPaths (resolveTarget extra_path) env.uuidValue imageType).1 =
        (tempPaths (resolveTarget extra_path) env.uuidValue imageType).2
    · rw [show (tempPaths (resolveTarget extra_path) env.uuidValue imageType).1 =
        (tempPaths (resolveTarget extra_path) env.uuidValue imageType).2
        from hpq]
      exact fsLookup_fsRemoveFile_self _ _
    · rw [fsLookup_fsRemoveFile_other _
        (tempPaths (resolveTarget extra_path) env.uuidValue imageType).2
        (tempPaths (resolveTarget extra_path) env.uuidValue imageType).1 hpq]
      exact fsLookup_fsRemoveFile_self _ _
  · exact fsLookup_fsRemoveFile_self _ _
  · simp
  · simp

/-- Closed instance of the amended C1 at a concrete successful call. -/
theorem c1_cleanup_amended_witness :
    fsLookup (convertToWebpBuffer "linux-x64" [1] "png" "-q 80" none envOk
        fs0).2.1
      (tempPaths (resolveTarget none) envOk.uuidValue "png").1 = none ∧
    fsLookup (convertToWebpBuffer "linux-x64" [1] "png" "-q 80" none envOk
        fs0).2.1
      (tempPaths (resolveTarget none) envOk.uuidValue "png").2 = none ∧
    Event.removeAttempted (tempPaths (resolveTarget none) envOk.uuidValue "png").1 ∈
      (convertToWebpBuffer "linux-x64" [1] "png" "-q 80" none envOk fs0).2.2 ∧
    Event.removeAttempted (tempPaths (resolveTarget none) envOk.uuidValue "png").2 ∈
      (convertToWebpBuffer "linux-x64" [1] "png" "-q 80" none envOk fs0).2.2 :=
  c1_cleanup_amended "linux-x64" [1] "png" "-q 80" none envOk fs0
    (Or.inr rfl) rfl rfl

/-- C2 counterexample: the `try` block resolves with the output bytes, but
a denied removal of the input temp file during cleanup replaces that
primary outcome with the removal error — a cleanup error other than the
suppressed missing-file case is not swallowed and masks the result. -/
theorem c2_counterexample :
    (tryConvert "linux-x64" [1] "-q 80"
        (tempPaths (resolveTarget none) envRmDenied.uuidValue "png").1
        (tempPaths (resolveTarget none) envRmDenied.uuidValue "png").2
        envRmDenied (getTempPath none envRmDenied fs0).2.1).1 =
      Except.ok [1, 2] ∧
    (convertToWebpBuffer "linux-x64" [1] "png" "-q 80" none envRmDenied
        fs0).1 =
      Except.error (JsError.rmError
        (tempPaths (resolveTarget none) envRmDenied.uuidValue "png").1
        "EACCES") :=
  ⟨by rfl, by rfl⟩

/-- C2 as amended: `force: true` swallows only the missing-file removal
error; when both forced removals succeed, the delivered outcome is exactly
the `try`-block outcome — the first error among the write, tool-invocation
and read steps, or the output bytes.  The first conjunct states that
equality; the rest enumerate the write-fails, unsupported-platform,
spawn-fails, non-zero-exit, success and missing-output scenarios. -/
theorem c2_first_error_amended (platformKey : String) (inputBuffer : List Nat)
    (imageType option_ : String) (extra_path : Option String) (env : Env)
    (st : FsState) (h : reachesStep4 extra_path env st)
    (hrm1 : env.rmInputDenied = none) (hrm2 : env.rmOutputDenied = none) :
    ((convertToWebpBuffer platformKey inputBuffer imageType option_
        extra_path env st).1 =
      (tryConvert platformKey inputBuffer option_
        (tempPaths (resolveTarget extra_path) env.uuidValue imageType).1
        (tempPaths (resolveTarget extra_path) env.uuidValue imageType).2
        env (getTempPath extra_path env st).2.1).1) ∧
    (∀ msg, env.writeDenied = some msg →
      (convertToWebpBuffer platformKey inputBuffer imageType option_
          extra_path env st).1 =
        Except.error (JsError.writeError
          (tempPaths (resolveTarget extra_path) env.uuidValue imageType).1 msg)) ∧
    (env.writeDenied = none →
      cwebpPlatformConfig.find? (fun e => e.1 = platformKey) = none →
      (convertToWebpBuffer platformKey inputBuffer imageType option_
          extra_path env st).1 =
        Except.error (JsError.unsupportedPlatform platformKey)) ∧
    (∀ binary msg, env.writeDenied = none →
      getCwebpPath platformKey = Except.ok binary →
      env.execOutcome = ExecOutcome.spawnError msg →
      (convertToWebpBuffer platformKey inputBuffer imageType option_
          extra_path env st).1 =
        Except.error (JsError.toolSpawnError binary msg)) ∧
    (∀ binary code out err, env.writeDenied = none →
      getCwebpPath platformKey = Except.ok binary →
      env.execOutcome = ExecOutcome.exited code out err → code ≠ 0 →
      (convertToWebpBuffer platformKey inputBuffer imageType option_
          extra_path env st).1 =
        Except.error (JsError.toolExitError binary code out err)) ∧
    (∀ binary out err bytes, env.writeDenied = none →
      getCwebpPath platformKey = Except.ok binary →
      env.execOutcome = ExecOutcome.exited 0 out err →
      env.toolOutput = some bytes →
      (convertToWebpBuffer platformKey inputBuffer imageType option_
          extra_path env st).1 = Except.ok bytes) ∧
    (∀ binary out err, env.writeDenied = none →
      getCwebpPath platformKey = Except.ok binary →
      env.execOutcome = ExecOutcome.exited 0 out err →
      env.toolOutput = none →
      uuidFormat env.uuidValue = true → '/' ∉ imageType.data →
      imageType ≠ "webp" →
      fsLookup st
          (tempPaths (resolveTarget extra_path) env.uuidValue imageType).2 = none →
      (convertToWebpBuffer platformKey inputBuffer imageType option_
          extra_path env st).1 =
        Except.error (JsError.readError
          (tempPaths (resolveTarget extra_path) env.uuidValue imageType).2)) := by
  refine ⟨?_, ?_, ?_, ?_, ?_, ?_, ?_⟩
  · rw [convert_eq_clean platformKey inputBuffer imageType option_
      extra_path env st h hrm1 hrm2]
  · intro msg hw
    rw [convert_eq_clean platformKey inputBuffer imageType option_
      extra_path env st h hrm1 hrm2]
    dsimp only
    simp [tryConvert, hw]
  · intro hw hk
    rw [convert_eq_clean platformKey inputBuffer imageType option_
      extra_path env st h hrm1 hrm2]
    dsimp only
    simp [tryConvert, hw, runCwebp, getCwebpPath, hk]
  · intro binary msg hw hb hx
    rw [convert_eq_clean platformKey inputBuffer imageType option_
      extra_path env st h hrm1 hrm2]
    dsimp only
    simp [tryConvert, hw, runCwebp, hb, hx, executeCommand]
  · intro binary code out err hw hb hx hc
    rw [convert_eq_clean platformKey inputBuffer imageType option_
      extra_path env st h hrm1 hrm2]
    dsimp only
    cases htool : env.toolOutput <;>
      simp [tryConvert, hw, runCwebp, hb, hx, executeCommand, hc, htool,
        fsLookup_fsWrite_self]
  · intro binary out err bytes hw hb hx htool
    rw [convert_eq_clean platformKey inputBuffer imageType option_
      extra_path env st h hrm1 hrm2]
    dsimp only
    simp [tryConvert, hw, runCwebp, hb, hx, executeCommand, htool,
      fsLookup_fsWrite_self]
  · intro binary out err hw hb hx htool hu himg hT hst
    rw [convert_eq_clean platformKey inputBuffer imageType option_
      extra_path env st h hrm1 hrm2]
    dsimp only
    have hne := tempPaths_fst_ne_snd (resolveTarget extra_path)
      env.uuidValue imageType hu himg hT
    have hlk : fsLookup (fsWrite (getTempPath extra_path env st).2.1
        (tempPaths (resolveTarget extra_path) env.uuidValue imageType).1
        inputBuffer)
        (tempPaths (resolveTarget extra_path) env.uuidValue imageType).2 =
        none := by
      rw [fsLookup_fsWrite_other _ _ _ _ (fun hh => hne hh.symm),
        fsLookup_files_eq _ st (getTempPath_files extra_path env st) _]
      exact hst
    simp [tryConvert, hw, runCwebp, hb, hx, executeCommand, htool, hlk]

/-- Closed instance of the amended C2 at a concrete call whose temp-file
write is denied: the write error is the delivered outcome. -/
theorem c2_first_error_amended_witness :
    (convertToWebpBuffer "linux-x64" [5] "png" "-q 80" none envWriteDenied
        fs0).1 =
      Except.error (JsError.writeError
        (tempPaths (resolveTarget none) envWriteDenied.uuidValue "png").1
        "EACCES") :=
  (c2_first_error_amended "linux-x64" [5] "png" "-q 80" none envWriteDenied
    fs0 (Or.inr rfl) rfl rfl).2.1 "EACCES" rfl

/-- C3 counterexample: `"not-valid-base64!!"` is not well-formed base64,
yet the base64 adapter does not reject with a decode error — in a benign
environment the call resolves with output, and a temp-file write occurred —
so the claim that malformed input rejects before any filesystem interaction
is false of the code. -/
theorem c3_counterexample :
    isWellFormedBase64 "not-valid-base64!!" = false ∧
    (base64str2webp "linux-x64" "not-valid-base64!!" "jpg" "-q 80" none envOk
        fs0).1 = Except.ok "AQI=" ∧
    Event.fileWritten
        "/tmp/webp-converter-js/aaaaaaaa-aaaa-4aaa-8aaa-aaaaaaaaaaaa.jpg" ∈
      (base64str2webp "linux-x64" "not-valid-base64!!" "jpg" "-q 80" none envOk
        fs0).2.2 ∧
    Event.dirCreated "/tmp/webp-converter-js" ∈
      (base64str2webp "linux-x64" "not-valid-base64!!" "jpg" "-q 80" none envOk
        fs0).2.2 :=
  ⟨by decide, by rfl, by decide, by decide⟩

/-- C3 as amended: `Buffer.from(s, 'base64')` is lenient and total, so the
base64 adapter never rejects at the decode step for any input string,
well-formed or not; the decoded bytes are handed to the pipeline, whose
outcome (base64-encoded on success) is delivered, and — when the call
reaches the write step — the input temp-file write really occurs. -/
theorem c3_lenient_decode (platformKey : String)
    (base64str imageType option_ : String) (extra_path : Option String)
    (env : Env) (st : FsState) (h : reachesStep4 extra_path env st)
    (hw : env.writeDenied = none) :
    (base64str2webp platformKey base64str imageType option_ extra_path env
        st).1 =
      Except.map base64Encode
        (convertToWebpBuffer platformKey (bufferFromBase64 base64str) imageType
          option_ extra_path env st).1 ∧
    Event.fileWritten
        (tempPaths (resolveTarget extra_path) env.uuidValue imageType).1 ∈
      (base64str2webp platformKey base64str imageType option_ extra_path env
        st).2.2 := by
  have htr : (base64str2webp platformKey base64str imageType option_
      extra_path env st).2.2 =
      (convertToWebpBuffer platformKey (bufferFromBase64 base64str) imageType
        option_ extra_path env st).2.2 := by
    unfold base64str2webp
    rcases hrun : convertToWebpBuffer platformKey (bufferFromBase64 base64str)
        imageType option_ extra_path env st with ⟨r, st1, tr1⟩
    cases r <;> simp [hrun]
  constructor
  · unfold base64str2webp
    rcases hrun : convertToWebpBuffer platformKey (bufferFromBase64 base64str)
        imageType option_ extra_path env st with ⟨r, st1, tr1⟩
    cases r <;> simp [hrun, Except.map]
  · rw [htr, convert_eq_of_reaches platformKey (bufferFromBase64 base64str)
      imageType option_ extra_path env st h]
    dsimp only
    obtain ⟨rest, hrest⟩ := tryConvert_trace_head platformKey
      (bufferFromBase64 base64str) option_
      (tempPaths (resolveTarget extra_path) env.uuidValue imageType).1
      (tempPaths (resolveTarget extra_path) env.uuidValue imageType).2
      env (getTempPath extra_path env st).2.1 hw
    rw [hrest]
    simp

/-- Closed instance of the amended C3 at the malformed input. -/
theorem c3_lenient_decode_witness :
    (base64str2webp "linux-x64" "not-valid-base64!!" "jpg" "-q 80" none envOk
        fs0).1 =
      Except.map base64Encode
        (convertToWebpBuffer "linux-x64" (bufferFromBase64 "not-valid-base64!!")
          "jpg" "-q 80" none envOk fs0).1 ∧
    Event.fileWritten
        (tempPaths (resolveTarget none) envOk.uuidValue "jpg").1 ∈
      (base64str2webp "linux-x64" "not-valid-base64!!" "jpg" "-q 80" none envOk
        fs0).2.2 :=
  c3_lenient_decode "linux-x64" "not-valid-base64!!" "jpg" "-q 80" none envOk
    fs0 (Or.inr rfl) rfl

/-- C4 counterexample: even with the same resolved temp directory, a
format tag containing a path separator and a dot-dot segment makes
`path.join` normalisation collapse one call's input path onto the other
call's, although the two uuid-formatted identifiers differ — so the claimed
disjointness is false. -/
theorem c4_counterexample :
    uuidFormat "aaaaaaaa-aaaa-4aaa-8aaa-aaaaaaaaaaaa" = true ∧
    uuidFormat "bbbbbbbb-bbbb-4bbb-8bbb-bbbbbbbbbbbb" = true ∧
    "aaaaaaaa-aaaa-4aaa-8aaa-aaaaaaaaaaaa" ≠
      "bbbbbbbb-bbbb-4bbb-8bbb-bbbbbbbbbbbb" ∧
    (tempPaths (resolveTarget (some "/t"))
        "aaaaaaaa-aaaa-4aaa-8aaa-aaaaaaaaaaaa"
        "q/../bbbbbbbb-bbbb-4bbb-8bbb-bbbbbbbbbbbb.png").1 =
      (tempPaths (resolveTarget (some "/t"))
        "bbbbbbbb-bbbb-4bbb-8bbb-bbbbbbbbbbbb" "png").1 :=
  ⟨by decide, by decide, by decide, by decide⟩

/-- C4 as amended: each call derives both temp paths from its single
generated identifier via `tempPaths`, and for two calls that resolve to the
same temp directory and whose format tags are free of the path separator
(so each temp file name is a single path segment), distinct uuid-formatted
identifiers give fully disjoint path pairs. -/
theorem c4_temp_path_pairs_disjoint (d id1 id2 t1 t2 : String)
    (h1 : uuidFormat id1 = true) (h2 : uuidFormat id2 = true)
    (hne : id1 ≠ id2) (ht1 : '/' ∉ t1.data) (ht2 : '/' ∉ t2.data) :
    (tempPaths d id1 t1).1 ≠ (tempPaths d id2 t2).1 ∧
    (tempPaths d id1 t1).1 ≠ (tempPaths d id2 t2).2 ∧
    (tempPaths d id1 t1).2 ≠ (tempPaths d id2 t2).1 ∧
    (tempPaths d id1 t1).2 ≠ (tempPaths d id2 t2).2 := by
  have hlen : id1.data.length = id2.data.length := by
    rw [uuidFormat_length id1 h1, uuidFormat_length id2 h2]
  have key : ∀ s1 s2 : String, id1 ++ s1 = id2 ++ s2 → False :=
    fun s1 s2 hh => hne (append_suffix_inj id1 id2 s1 s2 hlen hh).1
  have hwebp : ('/' : Char) ∉ ("webp" : String).data := by decide
  refine ⟨?_, ?_, ?_, ?_⟩
  · intro hcontra
    unfold tempPaths at hcontra
    dsimp only at hcontra
    have hname := pathJoin_seg_inj d _ _ (name_normalSegment id1 t1 h1 ht1)
      (name_normalSegment id2 t2 h2 ht2) hcontra
    rw [String.append_assoc id1 "." t1, String.append_assoc id2 "." t2]
      at hname
    exact key _ _ hname
  · intro hcontra
    unfold tempPaths at hcontra
    dsimp only at hcontra
    rw [webp_name_eq id2] at hcontra
    have hname := pathJoin_seg_inj d _ _ (name_normalSegment id1 t1 h1 ht1)
      (name_normalSegment id2 "webp" h2 hwebp) hcontra
    rw [String.append_assoc id1 "." t1, String.append_assoc id2 "." "webp"]
      at hname
    exact key _ _ hname
  · intro hcontra
    unfold tempPaths at hcontra
    dsimp only at hcontra
    rw [webp_name_eq id1] at hcontra
    have hname := pathJoin_seg_inj d _ _
      (name_normalSegment id1 "webp" h1 hwebp)
      (name_normalSegment id2 t2 h2 ht2) hcontra
    rw [String.append_assoc id1 "." "webp", String.append_assoc id2 "." t2]
      at hname
    exact key _ _ hname
  · intro hcontra
    unfold tempPaths at hcontra
    dsimp only at hcontra
    rw [webp_name_eq id1, webp_name_eq id2] at hcontra
    have hname := pathJoin_seg_inj d _ _
      (name_normalSegment id1 "webp" h1 hwebp)
      (name_normalSegment id2 "webp" h2 hwebp) hcontra
    rw [String.append_assoc id1 "." "webp", String.append_assoc id2 "." "webp"]
      at hname
    exact key _ _ hname

/-- Closed instance of the amended C4 at two concrete identifiers. -/
theorem c4_temp_path_pairs_disjoint_witness :
    (tempPaths defaultTempDir "aaaaaaaa-aaaa-4aaa-8aaa-aaaaaaaaaaaa"
        "png").1 ≠
      (tempPaths defaultTempDir "bbbbbbbb-bbbb-4bbb-8bbb-bbbbbbbbbbbb"
        "jpg").1 ∧
    (tempPaths defaultTempDir "aaaaaaaa-aaaa-4aaa-8aaa-aaaaaaaaaaaa"
        "png").1 ≠
      (tempPaths defaultTempDir "bbbbbbbb-bbbb-4bbb-8bbb-bbbbbbbbbbbb"
        "jpg").2 ∧
    (tempPaths defaultTempDir "aaaaaaaa-aaaa-4aaa-8aaa-aaaaaaaaaaaa"
        "png").2 ≠
      (tempPaths defaultTempDir "bbbbbbbb-bbbb-4bbb-8bbb-bbbbbbbbbbbb"
        "jpg").1 ∧
    (tempPaths defaultTempDir "aaaaaaaa-aaaa-4aaa-8aaa-aaaaaaaaaaaa"
        "png").2 ≠
      (tempPaths defaultTempDir "bbbbbbbb-bbbb-4bbb-8bbb-bbbbbbbbbbbb"
        "jpg").2 :=
  c4_temp_path_pairs_disjoint defaultTempDir
    "aaaaaaaa-aaaa-4aaa-8aaa-aaaaaaaaaaaa"
    "bbbbbbbb-bbbb-4bbb-8bbb-bbbbbbbbbbbb" "png" "jpg"
    (by decide) (by decide) (by decide) (by decide) (by decide)

/-- C7 counterexample: on the unsupported key `linux-arm64` the buffer
call does fail with the distinguishable unsupported-platform error, but
only after the temp directory was created and the input temp file was
written — filesystem writes occur before the error, contradicting the
claim's "before any filesystem writes occur". -/
theorem c7_counterexample :
    cwebpPlatformConfig.find? (fun e => e.1 = "linux-arm64") = none ∧
    (buffer2webp "linux-arm64" [1, 2, 3] "png" "-q 80" none envOk fs0).1 =
      Except.error (JsError.unsupportedPlatform "linux-arm64") ∧
    Event.dirCreated "/tmp/webp-converter-js" ∈
      (buffer2webp "linux-arm64" [1, 2, 3] "png" "-q 80" none envOk fs0).2.2 ∧
    Event.fileWritten
        "/tmp/webp-converter-js/aaaaaaaa-aaaa-4aaa-8aaa-aaaaaaaaaaaa.png" ∈
      (buffer2webp "linux-arm64" [1, 2, 3] "png" "-q 80" none envOk fs0).2.2 :=
  ⟨by decide, by rfl, by decide, by decide⟩

/-- C7 as amended: on an unsupported platform key a pipeline call that
reaches the write step fails at the tool-invocation step with the clear,
distinguishable unsupported-platform error (delivered when the cleanup
removals do not themselves fail); the temp-directory creation and the input
temp-file write occur before the error is raised. -/
theorem c7_unsupported_platform (platformKey : String) (inputBuffer : List Nat)
    (imageType option_ : String) (extra_path : Option String) (env : Env)
    (st : FsState)
    (hk : cwebpPlatformConfig.find? (fun e => e.1 = platformKey) = none)
    (h : reachesStep4 extra_path env st) (hw : env.writeDenied = none)
    (hrm1 : env.rmInputDenied = none) (hrm2 : env.rmOutputDenied = none) :
    (convertToWebpBuffer platformKey inputBuffer imageType option_ extra_path
        env st).1 =
      Except.error (JsError.unsupportedPlatform platformKey) ∧
    Event.fileWritten
        (tempPaths (resolveTarget extra_path) env.uuidValue imageType).1 ∈
      (convertToWebpBuffer platformKey inputBuffer imageType option_ extra_path
        env st).2.2 := by
  constructor
  · rw [convert_eq_clean platformKey inputBuffer imageType option_
      extra_path env st h hrm1 hrm2]
    dsimp only
    simp [tryConvert, hw, runCwebp, getCwebpPath, hk]
  · rw [convert_eq_clean platformKey inputBuffer imageType option_
      extra_path env st h hrm1 hrm2]
    dsimp only
    obtain ⟨rest, hrest⟩ := tryConvert_trace_head platformKey inputBuffer
      option_
      (tempPaths (resolveTarget extra_path) env.uuidValue imageType).1
      (tempPaths (resolveTarget extra_path) env.uuidValue imageType).2
      env (getTempPath extra_path env st).2.1 hw
    rw [hrest]
    simp

/-- Closed instance of the amended C7 on the unsupported `linux-arm64`. -/
theorem c7_unsupported_platform_witness :
    (convertToWebpBuffer "linux-arm64" [1, 2, 3] "png" "-q 80" none envOk
        fs0).1 =
      Except.error (JsError.unsupportedPlatform "linux-arm64") ∧
    Event.fileWritten
        (tempPaths (resolveTarget none) envOk.uuidValue "png").1 ∈
      (convertToWebpBuffer "linux-arm64" [1, 2, 3] "png" "-q 80" none envOk
        fs0).2.2 :=
  c7_unsupported_platform "linux-arm64" [1, 2, 3] "png" "-q 80" none envOk
    fs0 rfl (Or.inr rfl) rfl rfl rfl

/-- C8: the base64 adapter is exactly the pure composition
decode-pipeline-encode: it equals the spec-side composition on every input,
environment and filesystem state, result, final state and trace
included. -/
theorem c8_base64_adapter_is_composition (platformKey : String)
    (base64str imageType option_ : String) (extra_path : Option String)
    (env : Env) (st : FsState) :
    base64str2webp platformKey base64str imageType option_ extra_path env st =
      specBase64Composition platformKey base64str imageType option_ extra_path
        env st := by
  unfold base64str2webp specBase64Composition
  rcases hrun : convertToWebpBuffer platformKey (bufferFromBase64 base64str)
      imageType option_ extra_path env st with ⟨r, st1, tr1⟩
  cases r <;> simp [hrun, Except.map]

/-- C5: the external tool invoker fails exactly when the process cannot be
spawned or exits non-zero; a zero exit resolves with the captured
stdout/stderr pair, whatever the stderr text is — non-empty stderr alone is
never failure. -/
theorem c5_executeCommand_failure (binaryPath : String) (args : List String)
    (o : ExecOutcome) :
    ((∃ e, executeCommand binaryPath args o = Except.error e) ↔
      (∃ msg, o = ExecOutcome.spawnError msg) ∨
      (∃ code stdout stderr, o = ExecOutcome.exited code stdout stderr ∧
        code ≠ 0)) ∧
    (∀ stdout stderr,
      executeCommand binaryPath args (ExecOutcome.exited 0 stdout stderr) =
        Except.ok (stdout, stderr)) := by
  constructor
  · constructor
    · rintro ⟨e, he⟩
      cases o with
      | spawnError msg => exact Or.inl ⟨msg, rfl⟩
      | exited code stdout stderr =>
        by_cases hc : code = 0
        · subst hc
          simp [executeCommand] at he
        · exact Or.inr ⟨code, stdout, stderr, rfl, hc⟩
    · rintro (⟨msg, rfl⟩ | ⟨code, stdout, stderr, rfl, hc⟩)
      · exact ⟨JsError.toolSpawnError binaryPath msg, rfl⟩
      · exact ⟨JsError.toolExitError binaryPath code stdout stderr,
          by simp [executeCommand, hc]⟩
  · intro stdout stderr
    simp [executeCommand]

/-- C6: the temp directory resolver uses a supplied non-empty path
verbatim and the fixed default otherwise; it returns the resolved path
with the directory present, succeeds silently without touching the state
when the directory already exists, and fails only when the directory is
missing and the filesystem denies its creation. -/
theorem c6_getTempPath_contract (customPath : Option String) (env : Env)
    (st : FsState) :
    (∀ s : String, s ≠ "" → resolveTarget (some s) = s) ∧
    resolveTarget none = defaultTempDir ∧
    (resolveTarget customPath ∈ st.dirs →
      getTempPath customPath env st =
        (Except.ok (resolveTarget customPath), st, [])) ∧
    (env.mkdirDenied = none →
      (getTempPath customPath env st).1 =
        Except.ok (resolveTarget customPath) ∧
      resolveTarget customPath ∈ ((getTempPath customPath env st).2.1).dirs) ∧
    (∀ e, (getTempPath customPath env st).1 = Except.error e →
      resolveTarget customPath ∉ st.dirs ∧ env.mkdirDenied ≠ none) := by
  refine ⟨?_, rfl, ?_, ?_, ?_⟩
  · intro s hs
    simp [resolveTarget, hs]
  · intro hd
    simp [getTempPath, hd]
  · intro hm
    by_cases hd : resolveTarget customPath ∈ st.dirs
    · simp [getTempPath, hd]
    · simp [getTempPath, hd, hm]
  · intro e he
    by_cases hd : resolveTarget customPath ∈ st.dirs
    · simp [getTempPath, hd] at he
    · cases hm : env.mkdirDenied with
      | none => rw [getTempPath] at he; simp [hd, hm] at he
      | some m => exact ⟨hd, by simp [hm]⟩

/-- C9: the argument list handed to the cwebp binary is exactly the options
string split on single spaces — the split joins back with single spaces and
no token contains a space, so empty options and consecutive spaces
contribute empty-string arguments — followed by the input path, `-o`, the
output path and the logging argument defaulting to `-quiet`; `runCwebp`
hands exactly this list to the tool. -/
theorem c9_cwebp_argument_list (option_ input_image output_image : String) :
    jsCwebpArgs option_ input_image output_image cwebpDefaultLogging =
      jsSplitSpace option_ ++
        [input_image, "-o", output_image, cwebpDefaultLogging] ∧
    cwebpDefaultLogging = "-quiet" ∧
    joinWithSpaceStr (jsSplitSpace option_) = option_ ∧
    (∀ t ∈ jsSplitSpace option_, ∀ c ∈ t.data, c ≠ ' ') ∧
    jsSplitSpace "" = [""] ∧
    jsSplitSpace "-q  80" = ["-q", "", "80"] ∧
    (∀ (platformKey : String) (env : Env) (st : FsState) (binary : String),
      getCwebpPath platformKey = Except.ok binary →
      (runCwebp platformKey input_image output_image option_ env st).2.2 =
        [Event.toolInvoked binary
          (jsCwebpArgs option_ input_image output_image
            cwebpDefaultLogging)]) := by
  refine ⟨rfl, rfl, joinWithSpaceStr_jsSplitSpace option_, ?_, rfl, rfl, ?_⟩
  · intro t ht c hcin
    unfold jsSplitSpace at ht
    rw [List.mem_map] at ht
    obtain ⟨u, hu, rfl⟩ := ht
    exact splitSpaceChars_no_space option_.data [] (by simp) u hu c hcin
  · intro platformKey env st binary hb
    simp [runCwebp, hb]

/-- C10: the empty string as the custom temp path is falsy, so the resolver
falls back to the default directory and behaves exactly as a call with no
custom path. -/
theorem c10_empty_custom_path_default (env : Env) (st : FsState) :
    resolveTarget (some "") = defaultTempDir ∧
    getTempPath (some "") env st = getTempPath none env st :=
  ⟨rfl, rfl⟩
